import Mathlib

/-!
Orders list controller, portfolio reducer and webpack base configuration of catalog-ui

A shallow embedding of

* `src/smart-components/order/orders-list.js`: the reducer `ordersListState`, the handlers
  of the `OrdersList` component (`handlePagination`, `handleFilterItems`, `handleClearAll`,
  `activeFiltersConfig.onDelete`, the mount effect) and the empty-state selection;
* `src/helpers/shared/orders.ts`: `getOrderPortfolioName` and `getIOrderPlatformId`.

JavaScript objects with computed keys (`filters`) are association lists in insertion order.
Handlers are functions on a `World`: the reducer state of the component, the `meta` read
from the store, the pending debounced call, the dispatched fetches and the promise chains
waiting on them.
-/

namespace OrdersList

/-! ## Filters: a JavaScript object from field name to filter value -/

/-- A filter value: an array of strings (the `state` checkboxes) or a string (`owner`). -/
inductive FilterValue where
  | arr (values : List String)
  | str (value : String)
  deriving DecidableEq, Repr

/-- The `filters` object: own keys in insertion order, each with its value. -/
abbrev Filters := List (String × FilterValue)

/-- Property read `o[k]`; `none` is `undefined` (no such own key). -/
def objGet : Filters → String → Option FilterValue
  | [], _ => none
  | (k0, v0) :: rest, k => if k0 = k then some v0 else objGet rest k

/-- The object `{ ...o, [k]: v }` (also `o[k] = v` on a fresh copy): an existing key keeps its
position and takes the new value, a new key is appended. -/
def objSet : Filters → String → FilterValue → Filters
  | [], k, v => [(k, v)]
  | (k0, v0) :: rest, k, v => if k0 = k then (k0, v) :: rest else (k0, v0) :: objSet rest k v

/-- Own keys, `Object.keys(o)`. -/
def objKeys (o : Filters) : List String := o.map Prod.fst

/-! ## The reducer (orders-list.js, lines 53-87) -/

/-- The reducer state of the component. -/
structure ViewState where
  isOpen : Bool
  isFetching : Bool
  isFiltering : Bool
  filterType : String
  filters : Filters
  deriving DecidableEq, Repr

/-- The constant `initialState`. -/
def initialState : ViewState :=
  { isOpen := false
    isFetching := true
    isFiltering := false
    filterType := "state"
    filters := [("state", .arr []), ("owner", .str "")] }

/-- The function `changeFilters(value, type, filters)`, i.e. `{ ...filters, [type]: value }`. -/
def changeFilters (value : FilterValue) (type : String) (filters : Filters) : Filters :=
  objSet filters type value

/-- Actions sent to `stateDispatch`; `other` is any action whose type the switch does not list. -/
inductive Action where
  | setFetching (payload : Bool)
  | setFilterValue (payload : FilterValue)
  | replaceFilterChip (payload : Filters)
  | setFilteringFlag (payload : Bool)
  | setFilterType (payload : String)
  | other (type : String)
  deriving DecidableEq, Repr

/-- The reducer `ordersListState(state, action)`. -/
def ordersListState (state : ViewState) : Action → ViewState
  | .setFetching payload => { state with isFetching := payload }
  | .setFilterValue payload =>
      { state with filters := changeFilters payload state.filterType state.filters }
  | .replaceFilterChip payload => { state with filters := payload }
  | .setFilteringFlag payload => { state with isFiltering := payload }
  | .setFilterType payload => { state with filterType := payload }
  | .other _ => state

/-! ## The world the handlers act on -/

/-- The `meta` of the orders in the store, also the shape of a pagination argument. -/
structure Meta where
  count : Nat
  limit : Nat
  offset : Nat
  noData : Bool
  deriving DecidableEq, Repr

/-- How a promise settles. -/
inductive Outcome where
  | fulfilled
  | rejected
  deriving DecidableEq, Repr

/-- The promise chain attached to a dispatched fetch:
`mount` is `Promise.all([...]).then(...)` of the mount effect,
`paginate` is `.then(...).catch(...)` of `handlePagination`,
`filter` is `.then(...)` of the debounced filter. -/
inductive Waiter where
  | mount
  | paginate
  | filter
  deriving DecidableEq, Repr

/-- The component between two events. `view` is the `useReducer` state, `meta` the value
selected from the store, `timer` the arguments of the pending debounced call (if any),
`inflight` the promise chains of the dispatches that have not settled, `sent` the arguments
of every `fetchOrders` dispatched so far, `platformFetches` the number of `fetchPlatforms`
dispatched. -/
structure World where
  view : ViewState
  meta : Meta
  timer : Option (Filters × Option Meta)
  inflight : List Waiter
  sent : List (Filters × Option Meta)
  platformFetches : Nat
  deriving DecidableEq, Repr

/-- The call `stateDispatch(action)`: the reducer runs on the component state. -/
def stateDispatch (action : Action) (w : World) : World :=
  { w with view := ordersListState w.view action }

/-- The callback `(isFiltering) => stateDispatch({ type: 'setFilteringFlag', payload: isFiltering })`
that every call of `debouncedFilter` passes as `filteringCallback`. -/
def filteringCallback (isFiltering : Bool) (w : World) : World :=
  stateDispatch (.setFilteringFlag isFiltering) w

/-- The call `dispatch(fetchOrders(filters, meta))` with the promise chain `k` attached to the
promise it returns. -/
def dispatchFetchOrders (filters : Filters) (pagination : Option Meta) (k : Waiter)
    (w : World) : World :=
  { w with sent := w.sent ++ [(filters, pagination)], inflight := w.inflight ++ [k] }

/-- The method `promise.then(cb)` with a callback that does not throw: the callback runs on
fulfilment, a rejection passes through. -/
def thenP (o : Outcome) (cb : World → World) (w : World) : Outcome × World :=
  match o with
  | .fulfilled => (.fulfilled, cb w)
  | .rejected => (.rejected, w)

/-- The method `promise.catch(cb)` with a callback that does not throw: the callback runs on
rejection and the result is fulfilled. -/
def catchP (o : Outcome) (cb : World → World) (w : World) : Outcome × World :=
  match o with
  | .fulfilled => (.fulfilled, w)
  | .rejected => (.fulfilled, cb w)

/-- The promise `Promise.all(ps)`: fulfilled when every member is, rejected otherwise. -/
def promiseAll (os : List Outcome) : Outcome :=
  if os.all (fun o => o = .fulfilled) then .fulfilled else .rejected

/-! ## The debounced filter (orders-list.js, lines 45-51) -/

/-- The function wrapped by `asyncFormValidator` (lines 46-49): with `meta` defaulting to
`defaultSettings`, it calls `filteringCallback(true)`, dispatches the fetch and attaches
`.then(() => filteringCallback(false))`. -/
def debouncedFilterBody (defaultSettings : Meta) (filters : Filters) (meta : Option Meta)
    (w : World) : World :=
  let meta := meta.getD defaultSettings
  dispatchFetchOrders filters (some meta) .filter (filteringCallback true w)

/-- Modelled from the spec: `asyncFormValidator` (utilities/async-form-validator) is not among
the sources. By the debounce contract of the spec it is a trailing-edge debounce: a call arms
the timer with its arguments and cancels the call that was pending; the wrapped function does
not run at the call. -/
def debouncedFilter (filters : Filters) (meta : Option Meta) (w : World) : World :=
  { w with timer := some (filters, meta) }

/-- Modelled from the spec: when the quiet window of `asyncFormValidator` (1000 ms) elapses, the
wrapped function runs once with the latest arguments. -/
def timerFires (defaultSettings : Meta) (w : World) : World :=
  match w.timer with
  | none => w
  | some (filters, meta) => debouncedFilterBody defaultSettings filters meta { w with timer := none }

/-! ## The handlers of the component (orders-list.js, lines 129-212) -/

/-- The first render and the mount effect (lines 103-106 and 129-135): the reducer starts from
`initialState` with the filters of the URL hash when there are some, then
`setFetching(true)` and `Promise.all([fetchOrders(filters, viewState?.orders), fetchPlatforms()])`. -/
def mount (seedFilters : Option Filters) (seedOrders : Option Meta) (meta : Meta) : World :=
  let filters := seedFilters.getD [("state", .arr []), ("owner", .str "")]
  let w : World :=
    { view := { initialState with filters := filters }
      meta := meta
      timer := none
      inflight := []
      sent := []
      platformFetches := 0 }
  let w := stateDispatch (.setFetching true) w
  { w with
    sent := w.sent ++ [(filters, seedOrders)]
    platformFetches := w.platformFetches + 1
    inflight := w.inflight ++ [.mount] }

/-- The handler `handlePagination(_apiProps, pagination)`, up to the dispatch. -/
def handlePagination (pagination : Meta) (w : World) : World :=
  let filters := w.view.filters
  let w := stateDispatch (.setFetching true) w
  dispatchFetchOrders filters (some pagination) .paginate w

/-- The handler `handleFilterItems(value)`. -/
def handleFilterItems (value : FilterValue) (w : World) : World :=
  let filters := w.view.filters
  let filterType := w.view.filterType
  let meta := w.meta
  let w := stateDispatch (.setFilterValue value) w
  debouncedFilter (objSet filters filterType value) (some { meta with offset := 0 }) w

/-- The handler `handleClearAll()`. -/
def handleClearAll (w : World) : World :=
  let meta := w.meta
  let w := stateDispatch (.replaceFilterChip initialState.filters) w
  debouncedFilter initialState.filters (some meta) w

/-- One entry of `chip.chips`. -/
structure ChipItem where
  name : String
  deriving DecidableEq, Repr

/-- The chip group handed to `onDelete` by the toolbar. -/
structure Chip where
  category : String
  type : String
  chips : List ChipItem
  deriving DecidableEq, Repr

/-- The object `newFilters` built by `onDelete` (lines 193-200); `none` is a thrown `TypeError`:
`newFilters[chip.type]` is not an array, or the filter callback reads `chip.chips[0].name`
of an empty `chips` (the callback runs only when the array has an element). -/
def onDeleteNewFilters (filters : Filters) (chip : Chip) : Option Filters :=
  if chip.type = "state" then
    match objGet filters chip.type with
    | some (.arr values) =>
      match values, chip.chips with
      | [], _ => some (objSet filters chip.type (.arr []))
      | _ :: _, [] => none
      | _ :: _, c :: _ =>
        some (objSet filters chip.type (.arr (values.filter (fun value => value ≠ c.name))))
    | _ => none
  else
    some (objSet filters chip.type (.str ""))

/-- The handler `activeFiltersConfig.onDelete(_e, [chip], clearAll)`; `none` when it throws,
which happens before any dispatch. -/
def onDelete (chip : Chip) (clearAll : Bool) (w : World) : Option World :=
  if clearAll then
    some (handleClearAll w)
  else
    match onDeleteNewFilters w.view.filters chip with
    | none => none
    | some newFilters =>
      let meta := w.meta
      let w := stateDispatch (.replaceFilterChip newFilters) w
      some (debouncedFilter newFilters (some meta) w)

/-- The handler `filterConfig.onChange(_e, value)`. -/
def onFilterTypeChange (value : String) (w : World) : World :=
  stateDispatch (.setFilterType value) w

/-- What runs when the promise a chain waits on settles with `o`. -/
def onSettled (k : Waiter) (o : Outcome) (w : World) : World :=
  match k with
  | .mount => (thenP o (stateDispatch (.setFetching false)) w).2
  | .paginate =>
    let r := thenP o (stateDispatch (.setFetching false)) w
    (catchP r.1 (stateDispatch (.setFetching false)) r.2).2
  | .filter => (thenP o (filteringCallback false) w).2

/-- What can happen to the component. -/
inductive Event where
  | filterItems (value : FilterValue)
  | deleteChip (chip : Chip) (clearAll : Bool)
  | clearAll
  | paginate (pagination : Meta)
  | filterType (value : String)
  | timer
  | settles (i : Nat) (o : Outcome)
  | store (meta : Meta)
  deriving DecidableEq, Repr

/-- One event of the event loop. A handler that throws changes nothing; `settles i o` settles
the promise of the `i`-th in-flight dispatch; `store meta` is the store handing the component
a new `meta`. -/
def step (defaultSettings : Meta) (w : World) : Event → World
  | .filterItems value => handleFilterItems value w
  | .deleteChip chip clearAll => (onDelete chip clearAll w).getD w
  | .clearAll => handleClearAll w
  | .paginate pagination => handlePagination pagination w
  | .filterType value => onFilterTypeChange value w
  | .timer => timerFires defaultSettings w
  | .settles i o =>
    match w.inflight[i]? with
    | none => w
    | some k => onSettled k o { w with inflight := w.inflight.eraseIdx i }
  | .store meta => { w with meta := meta }

/-- The world after a sequence of events. -/
def run (defaultSettings : Meta) (w : World) (events : List Event) : World :=
  events.foldl (step defaultSettings) w

/-- Whether the event settles the fetch of a debounced filter: it is `settles i o` and the
`i`-th in-flight chain is the one of the debounced filter. -/
def settlesFilter (w : World) : Event → Bool
  | .settles i _ => decide (w.inflight[i]? = some .filter)
  | _ => false

/-- No event of the sequence, run from `w`, settles the fetch of a debounced filter. -/
def noFilterSettles (defaultSettings : Meta) (w : World) : List Event → Bool
  | [] => true
  | e :: rest =>
    !settlesFilter w e && noFilterSettles defaultSettings (step defaultSettings w e) rest

/-! ## The intents of the controller, as the component sends them to the reducer -/

/-- The intents that change the reducer state. -/
inductive Intent where
  | setFilterType (field : String)
  | setFilterValue (value : FilterValue)
  | removeFilterChip (chip : Chip)
  | clearAllFilters
  | setFetching (payload : Bool)
  | setFilteringFlag (payload : Bool)
  deriving DecidableEq, Repr

/-- The fields of the filter schema of the toolbar (`filterConfig.items`). -/
def schemaFields : List String := ["state", "owner"]

/-- An intent stays inside the schema: a filter type and the type of a removed chip are schema
fields. -/
def Intent.inSchema : Intent → Bool
  | .setFilterType field => decide (field ∈ schemaFields)
  | .removeFilterChip chip => decide (chip.type ∈ schemaFields)
  | _ => true

/-- The handler or dispatch behind each intent. -/
def applyIntent (w : World) : Intent → World
  | .setFilterType field => onFilterTypeChange field w
  | .setFilterValue value => handleFilterItems value w
  | .removeFilterChip chip => (onDelete chip false w).getD w
  | .clearAllFilters => handleClearAll w
  | .setFetching payload => stateDispatch (.setFetching payload) w
  | .setFilteringFlag payload => filteringCallback payload w

/-! ## The empty state (orders-list.js, lines 285-313) -/

/-- The message descriptors the empty state chooses from (`ordersMessages`,
`filteringMessages`). -/
inductive Message where
  | noOrdersTitle
  | noOrdersDescription
  | noResults
  | noResultsDescription
  | clearFilters
  deriving DecidableEq, Repr

/-- What the empty state shows: the title, the body and the labels of the buttons among the
secondary actions. -/
structure EmptyStateView where
  title : Message
  body : Message
  secondaryActions : List Message
  deriving DecidableEq, Repr

/-- The empty state of the render, `none` when it is not rendered: the condition is
`!(isFetching || isFiltering) && data.length === 0`. -/
def emptyState (view : ViewState) (dataLength : Nat) (meta : Meta) : Option EmptyStateView :=
  if !(view.isFetching || view.isFiltering) && dataLength == 0 then
    some
      { title := if meta.noData then .noOrdersTitle else .noResults
        body := if meta.noData then .noOrdersDescription else .noResultsDescription
        secondaryActions := if !meta.noData then [.clearFilters] else [] }
  else
    none

/-- Whether the `PrimaryToolbar`, which holds the filter chips and their clear-filters action,
is rendered (line 176): the condition is `!meta.noData`. -/
def primaryToolbarRendered (meta : Meta) : Bool := !meta.noData

/-! ## Enrichment of an order (helpers/shared/orders.ts) -/

/-- An order item; `none` is a missing (`undefined`) property. -/
structure OrderItem where
  portfolio_item_id : Option String
  deriving DecidableEq, Repr

/-- The fields of `OrderDetail` the helpers read. -/
structure OrderDetail where
  id : String
  orderItems : List OrderItem
  deriving DecidableEq, Repr

/-- The fields of `PortfolioItem` the helpers read; `none` is a missing property. -/
structure PortfolioItem where
  id : Option String
  name : Option String
  service_offering_source_ref : Option String
  portfolio_id : Option String
  deriving DecidableEq, Repr

/-- The expression `orderItems[0] && portfolioItems.find(({ id }) => orderItems[0].portfolio_item_id === id)`
shared by both helpers; `none` is `undefined`. -/
def findPortfolioItem (orderItems : List OrderItem) (portfolioItems : List PortfolioItem) :
    Option PortfolioItem :=
  match orderItems.head? with
  | none => none
  | some first => portfolioItems.find? (fun p => decide (first.portfolio_item_id = p.id))

/-- The helper `getOrderPortfolioName`; the result is a JavaScript value, `none` being the
`undefined` name of a matching item without a name. -/
def getOrderPortfolioName (order : OrderDetail) (portfolioItems : List PortfolioItem) :
    Option String :=
  match findPortfolioItem order.orderItems portfolioItems with
  | some portfolioItem => portfolioItem.name
  | none => some ("Order " ++ order.id)

/-- The helper `getIOrderPlatformId`; the result is an object, given by its own properties. -/
def getIOrderPlatformId (order : OrderDetail) (portfolioItems : List PortfolioItem) :
    List (String × Option String) :=
  match findPortfolioItem order.orderItems portfolioItems with
  | some portfolioItem =>
    [("orderPlatform", portfolioItem.service_offering_source_ref),
     ("orderPortfolio", portfolioItem.portfolio_id)]
  | none => []

/-! ## The debounce window, with a clock in milliseconds -/

/-- The wait passed to `asyncFormValidator` (line 50). -/
def debounceWait : Nat := 1000

/-- Modelled from the spec: the component together with the time at which the pending call of
`asyncFormValidator` (not among the sources) runs; `none` when no call is pending. -/
structure Clocked where
  world : World
  deadline : Option Nat
  deriving DecidableEq, Repr

/-- Modelled from the spec: time passes up to `now`; a pending call whose quiet window has
elapsed runs (trailing edge), one that is still inside its window stays pending. -/
def elapse (defaultSettings : Meta) (now : Nat) (c : Clocked) : Clocked :=
  match c.deadline with
  | none => c
  | some deadline =>
    if deadline ≤ now then { world := timerFires defaultSettings c.world, deadline := none }
    else c

/-- Modelled from the spec: a call of the debounced function restarts the quiet window, which
ends `debounceWait` later. Here the user changes the filter value at time `call.1` and
`handleFilterItems(call.2)` makes that call. -/
def filterItemsAt (defaultSettings : Meta) (c : Clocked) (call : Nat × FilterValue) : Clocked :=
  { world := handleFilterItems call.2 (elapse defaultSettings call.1 c).world
    deadline := some (call.1 + debounceWait) }

/-- A sequence of timed calls, one after the other. -/
def burst (defaultSettings : Meta) (c : Clocked) (calls : List (Nat × FilterValue)) : Clocked :=
  calls.foldl (filterItemsAt defaultSettings) c

/-- The calls follow a call made at time `previous` and all fall within one debounce window:
each comes no earlier than the one before and less than `debounceWait` after it. -/
def withinWindow (previous : Nat) : List (Nat × FilterValue) → Bool
  | [] => true
  | call :: rest =>
    decide (previous ≤ call.1) && decide (call.1 < previous + debounceWait)
      && withinWindow call.1 rest

/-- The time of the last call of a sequence that follows a call made at `previous`. -/
def lastCallTime (previous : Nat) : List (Nat × FilterValue) → Nat
  | [] => previous
  | call :: rest => lastCallTime call.1 rest

end OrdersList

/-! # JavaScript values and objects -/

namespace JS

/-- A JavaScript value; numbers are the integers. -/
inductive JSValue where
  | undefined
  | null
  | bool (b : Bool)
  | num (n : Int)
  | str (s : String)
  | arr (items : List JSValue)
  | obj (props : List (String × JSValue))

/-- An object: own keys in insertion order, each with its value. -/
abbrev Obj := List (String × JSValue)

/-- Own property lookup; `none` when the object has no such own key. -/
def propGet : Obj → String → Option JSValue
  | [], _ => none
  | (k0, v0) :: rest, k => if k0 = k then some v0 else propGet rest k

/-- Property read `o[k]`: `undefined` when the key is missing. -/
def propRead (o : Obj) (k : String) : JSValue := (propGet o k).getD .undefined

/-- The object `{ ...o, [k]: v }`, also the assignment `o[k] = v`: an existing key keeps its
position and takes the new value, a new key is appended. -/
def propSet : Obj → String → JSValue → Obj
  | [], k, v => [(k, v)]
  | (k0, v0) :: rest, k, v => if k0 = k then (k0, v) :: rest else (k0, v0) :: propSet rest k v

/-- Own keys, `Object.keys(o)`. -/
def propKeys (o : Obj) : List String := o.map Prod.fst

/-- Truthiness: `undefined`, `null`, `false`, `0` and the empty string are falsy. -/
def truthy : JSValue → Bool
  | .undefined => false
  | .null => false
  | .bool b => b
  | .num n => decide (n ≠ 0)
  | .str s => decide (s ≠ "")
  | .arr _ => true
  | .obj _ => true

/-- The test `v == null`: true of `null` and `undefined` only. -/
def looseEqNull : JSValue → Bool
  | .undefined => true
  | .null => true
  | _ => false

/-- The expression `a || b`. -/
def jsOr (a b : JSValue) : JSValue := if truthy a then a else b

/-- The test `v === s` for a string literal `s`. -/
def strictEqStr : JSValue → String → Bool
  | .str t, s => decide (t = s)
  | _, _ => false

end JS

/-! # The portfolio reducer (redux/reducers/portfolio-reducer.js) -/

namespace PortfolioReducer

open JS

/-- The constants imported from `../action-types`, taken to be pairwise distinct strings. -/
inductive ActionType where
  | FETCH_PORTFOLIO
  | FETCH_PORTFOLIOS
  | FETCH_PORTFOLIO_ITEMS
  | FETCH_PORTFOLIO_ITEMS_WITH_PORTFOLIO
  | FETCH_PORTFOLIO_ITEM
  | FILTER_PORTFOLIO_ITEMS
  | SELECT_PORTFOLIO_ITEM
  | UPDATE_PORTFOLIO
  | SET_LOADING_STATE
  | REMOVE_PORTFOLIO_ITEMS
  deriving DecidableEq, Repr

open ActionType

/-- A key of the exported handler map: a constant itself, or a constant followed by `_PENDING`
or `_FULFILLED`. -/
inductive Key where
  | plain (t : ActionType)
  | pending (t : ActionType)
  | fulfilled (t : ActionType)
  deriving DecidableEq, Repr

/-- The part of an action the handlers read; a missing `payload` is `undefined`. -/
structure PortfolioAction where
  payload : JSValue

/-- The constant `portfoliosInitialState`. -/
def portfoliosInitialState : Obj :=
  [("portfolioItems", .arr []),
   ("portfolioItem", .obj []),
   ("portfolios", .obj [("data", .arr [])]),
   ("portfolio", .obj []),
   ("filterValue", .str ""),
   ("isLoading", .bool false)]

/-- The handler `setLoadingState`; the parameter default `payload = true` applies to
`undefined`. -/
def setLoadingState (state : Obj) (action : PortfolioAction) : Obj :=
  let payload :=
    match action.payload with
    | .undefined => JSValue.bool true
    | p => p
  propSet state "isLoading" payload

/-- The handler `setPortfolios`. -/
def setPortfolios (state : Obj) (action : PortfolioAction) : Obj :=
  propSet (propSet state "portfolios" action.payload) "isLoading" (.bool false)

/-- The handler `setPortfolioItems`. -/
def setPortfolioItems (state : Obj) (action : PortfolioAction) : Obj :=
  propSet (propSet state "portfolioItems" action.payload) "isLoading" (.bool false)

/-- The handler `setPortfolioItem`. -/
def setPortfolioItem (state : Obj) (action : PortfolioAction) : Obj :=
  propSet (propSet state "portfolioItem" action.payload) "isLoading" (.bool false)

/-- The handler `selectPortfolio`. -/
def selectPortfolio (state : Obj) (action : PortfolioAction) : Obj :=
  propSet (propSet state "selectedPortfolio" action.payload) "isLoading" (.bool false)

/-- The handler `filterPortfolios`. -/
def filterPortfolios (state : Obj) (action : PortfolioAction) : Obj :=
  propSet state "filterValue" action.payload

/-- The default export: the handler stored under each key, `none` for a key that is not in the
map. -/
def handlers : Key → Option (Obj → PortfolioAction → Obj)
  | .pending .FETCH_PORTFOLIOS => some setLoadingState
  | .fulfilled .FETCH_PORTFOLIOS => some setPortfolios
  | .pending .FETCH_PORTFOLIO_ITEMS => some setLoadingState
  | .fulfilled .FETCH_PORTFOLIO_ITEMS => some setPortfolioItems
  | .pending FETCH_PORTFOLIO_ITEMS_WITH_PORTFOLIO => some setLoadingState
  | .fulfilled FETCH_PORTFOLIO_ITEMS_WITH_PORTFOLIO => some setPortfolioItems
  | .pending .FETCH_PORTFOLIO_ITEM => some setLoadingState
  | .fulfilled .FETCH_PORTFOLIO_ITEM => some setPortfolioItem
  | .pending FETCH_PORTFOLIO => some setLoadingState
  | .fulfilled FETCH_PORTFOLIO => some selectPortfolio
  | .plain .FILTER_PORTFOLIO_ITEMS => some filterPortfolios
  | .fulfilled .SELECT_PORTFOLIO_ITEM => some setPortfolioItem
  | .plain .SELECT_PORTFOLIO_ITEM => some setPortfolioItem
  | .fulfilled UPDATE_PORTFOLIO => some selectPortfolio
  | .plain .SET_LOADING_STATE => some setLoadingState
  | .pending .REMOVE_PORTFOLIO_ITEMS => some setLoadingState
  | _ => none

end PortfolioReducer

/-! # The webpack base configuration (config/webpack.base.config.js) -/

namespace WebpackConfig

open JS

/-- One entry of `defaultConfigs`. -/
structure ConfigItem where
  name : String
  default : JSValue
  scope : String

/-- The constant `defaultConfigs`. -/
def defaultConfigs : List ConfigItem :=
  [⟨"API_HOST", .str "", "global"⟩,
   ⟨"API_BASE_PATH", .str "", "global"⟩,
   ⟨"UI_BASE_PATH", .str "", "global"⟩,
   ⟨"DEPLOYMENT_MODE", .str "standalone", "global"⟩,
   ⟨"NAMESPACE_TERM", .str "namespaces", "global"⟩,
   ⟨"APPLICATION_NAME", .str "Catalog", "global"⟩,
   ⟨"ANSIBLE_CATALOG_LOGIN_URI", .str "Catalog", "global"⟩,
   ⟨"UI_USE_HTTPS", .bool false, "webpack"⟩,
   ⟨"UI_DEBUG", .bool false, "webpack"⟩,
   ⟨"TARGET_ENVIRONMENT", .str "prod", "webpack"⟩,
   ⟨"UI_PORT", .num 8002, "webpack"⟩,
   ⟨"WEBPACK_PROXY", .undefined, "webpack"⟩,
   ⟨"WEBPACK_PUBLIC_PATH", .undefined, "webpack"⟩,
   ⟨"USE_FAVICON", .bool true, "webpack"⟩]

/-- The two objects the loop fills. -/
structure Resolved where
  customConfigs : Obj
  globals : Obj

/-- The body of `defaultConfigs.forEach` (lines 34-46) for one item; `stringify` is
`JSON.stringify`. -/
def resolveItem (stringify : JSValue → JSValue) (inputConfigs : Obj) (acc : Resolved)
    (item : ConfigItem) : Resolved :=
  let customConfigs :=
    if looseEqNull (propRead inputConfigs item.name) then
      propSet acc.customConfigs item.name item.default
    else
      propSet acc.customConfigs item.name (propRead inputConfigs item.name)
  let globals :=
    if item.scope = "global" then
      propSet acc.globals item.name
        (stringify (jsOr (propRead inputConfigs item.name) item.default))
    else
      acc.globals
  { customConfigs := customConfigs, globals := globals }

/-- The loop `defaultConfigs.forEach` over a list of items, from two empty objects. -/
def resolveAll (stringify : JSValue → JSValue) (inputConfigs : Obj)
    (items : List ConfigItem) : Resolved :=
  items.foldl (resolveItem stringify inputConfigs) { customConfigs := [], globals := [] }

/-- What `module.exports(inputConfigs)` decides: the two objects of the loop, the
`htmlPluginConfig`, the `debug`, `https` and `port` handed to the configuration library, the
overrides of the dev-server proxy and of the public path (when set), whether the entry is
replaced by the standalone one, and the object given to `DefinePlugin`. -/
structure Build where
  customConfigs : Obj
  globals : Obj
  htmlPlugin : Obj
  debug : JSValue
  https : JSValue
  port : JSValue
  proxy : Option JSValue
  publicPath : Option JSValue
  standaloneEntry : Bool
  definePlugin : Obj

/-- The exported function `module.exports = (inputConfigs) => ...`. -/
def webpackBaseConfig (stringify : JSValue → JSValue) (inputConfigs : Obj) : Build :=
  let r := resolveAll stringify inputConfigs defaultConfigs
  let customConfigs := r.customConfigs
  let htmlPluginConfig : Obj :=
    [("targetEnv", propRead customConfigs "DEPLOYMENT_MODE"),
     ("applicationName", propRead customConfigs "APPLICATION_NAME"),
     ("inject", .str "head")]
  let htmlPluginConfig :=
    if truthy (propRead customConfigs "USE_FAVICON") then
      propSet htmlPluginConfig "favicon" (.str "src/assets/images/favicon.ico")
    else
      htmlPluginConfig
  { customConfigs := customConfigs
    globals := r.globals
    htmlPlugin := htmlPluginConfig
    debug := propRead customConfigs "UI_DEBUG"
    https := propRead customConfigs "UI_USE_HTTPS"
    port := propRead customConfigs "UI_PORT"
    proxy :=
      if truthy (propRead customConfigs "WEBPACK_PROXY") then
        some (propRead customConfigs "WEBPACK_PROXY")
      else none
    publicPath :=
      if truthy (propRead customConfigs "WEBPACK_PUBLIC_PATH") then
        some (propRead customConfigs "WEBPACK_PUBLIC_PATH")
      else none
    standaloneEntry := strictEqStr (propRead customConfigs "DEPLOYMENT_MODE") "standalone"
    definePlugin := r.globals }

end WebpackConfig

namespace OrdersList

/-! ## Properties of the object operations -/

theorem objGet_objSet_same (o : Filters) (k : String) (v : FilterValue) :
    objGet (objSet o k v) k = some v := by
  induction o with
  | nil => simp [objSet, objGet]
  | cons p rest ih =>
    obtain ⟨k0, v0⟩ := p
    by_cases h : k0 = k
    · simp [objSet, objGet, h]
    · simp [objSet, objGet, h, ih]

theorem objGet_objSet_other (o : Filters) (k j : String) (v : FilterValue) (h : j ≠ k) :
    objGet (objSet o k v) j = objGet o j := by
  induction o with
  | nil => simp [objSet, objGet, Ne.symm h]
  | cons p rest ih =>
    obtain ⟨k0, v0⟩ := p
    by_cases h0 : k0 = k
    · subst h0
      simp [objSet, objGet, Ne.symm h]
    · by_cases h1 : k0 = j
      · subst h1
        simp [objSet, objGet, h]
      · simp [objSet, objGet, h0, h1, ih]

theorem objKeys_objSet_of_mem (o : Filters) (k : String) (v : FilterValue)
    (h : k ∈ objKeys o) : objKeys (objSet o k v) = objKeys o := by
  induction o with
  | nil => simp [objKeys] at h
  | cons p rest ih =>
    obtain ⟨k0, v0⟩ := p
    by_cases h0 : k0 = k
    · simp [objSet, objKeys, h0]
    · have hr : k ∈ objKeys rest := by
        simp only [objKeys, List.map_cons, List.mem_cons] at h
        rcases h with h | h
        · exact absurd h.symm h0
        · exact h
      have := ih hr
      simp only [objKeys] at this
      simp [objSet, objKeys, h0, this]

theorem objGet_isSome_iff_mem (o : Filters) (k : String) :
    (objGet o k).isSome ↔ k ∈ objKeys o := by
  induction o with
  | nil => simp [objGet, objKeys]
  | cons p rest ih =>
    obtain ⟨k0, v0⟩ := p
    by_cases h0 : k0 = k
    · simp [objGet, objKeys, h0]
    · have h1 : ¬ k = k0 := fun h => h0 h.symm
      simp only [objKeys] at ih
      simp [objGet, objKeys, h0, h1, ih]

/-! ## Removing a filter chip -/

theorem onDelete_eq_of_newFilters (w : World) (chip : Chip) (newFilters : Filters)
    (h : onDeleteNewFilters w.view.filters chip = some newFilters) :
    onDelete chip false w =
      some (debouncedFilter newFilters (some w.meta)
        (stateDispatch (.replaceFilterChip newFilters) w)) := by
  simp [onDelete, h]

/-- C1: `onDelete` with `clearAll` false, for a chip carrying the value `c.name`. When the
chip's field is `state` and `filters.state` is an array, the new filters hold under `state`
the old array filtered by `value !== c.name` (no `c.name` left, every other element kept
with its multiplicity and order) and every other field, `owner` included, as before. When the
chip's field is `owner`, the new `owner` is the empty string and every other field, `state`
included, is as before. In both cases the keys stay the same when the field was a key, the
reducer stores exactly these filters through `replaceFilterChip`, and the debounced filter is
called with them. -/
theorem onDelete_removes_chip (w : World) (chip : Chip) (c : ChipItem) (rest : List ChipItem)
    (hc : chip.chips = c :: rest) :
    (∀ values : List String, chip.type = "state" →
      objGet w.view.filters "state" = some (.arr values) →
      ∃ newFilters w1, onDelete chip false w = some w1 ∧
        objGet newFilters "state" = some (.arr (values.filter (fun value => value ≠ c.name))) ∧
        c.name ∉ values.filter (fun value => value ≠ c.name) ∧
        (values.filter (fun value => value ≠ c.name)).Sublist values ∧
        (∀ v, v ≠ c.name →
          (values.filter (fun value => value ≠ c.name)).count v = values.count v) ∧
        (∀ k, k ≠ "state" → objGet newFilters k = objGet w.view.filters k) ∧
        objGet newFilters "owner" = objGet w.view.filters "owner" ∧
        objKeys newFilters = objKeys w.view.filters ∧
        w1.view = ordersListState w.view (.replaceFilterChip newFilters) ∧
        w1.view.filters = newFilters ∧
        w1.timer = some (newFilters, some w.meta) ∧
        (∀ defaultSettings,
          (timerFires defaultSettings w1).sent = w.sent ++ [(newFilters, some w.meta)])) ∧
    (chip.type = "owner" →
      ∃ newFilters w1, onDelete chip false w = some w1 ∧
        objGet newFilters "owner" = some (.str "") ∧
        (∀ k, k ≠ "owner" → objGet newFilters k = objGet w.view.filters k) ∧
        objGet newFilters "state" = objGet w.view.filters "state" ∧
        ("owner" ∈ objKeys w.view.filters → objKeys newFilters = objKeys w.view.filters) ∧
        w1.view = ordersListState w.view (.replaceFilterChip newFilters) ∧
        w1.view.filters = newFilters ∧
        w1.timer = some (newFilters, some w.meta) ∧
        (∀ defaultSettings,
          (timerFires defaultSettings w1).sent = w.sent ++ [(newFilters, some w.meta)])) := by
  constructor
  · intro values ht hs
    have hnew : onDeleteNewFilters w.view.filters chip =
        some (objSet w.view.filters "state"
          (.arr (values.filter (fun value => value ≠ c.name)))) := by
      cases values with
      | nil => simp [onDeleteNewFilters, ht, hs]
      | cons v vs => simp [onDeleteNewFilters, ht, hs, hc]
    refine ⟨_, _, onDelete_eq_of_newFilters w chip _ hnew, objGet_objSet_same _ _ _, ?_,
      List.filter_sublist _, ?_, ?_, ?_, ?_, rfl, rfl, rfl, fun _ => rfl⟩
    · simp [List.mem_filter]
    · intro v hv
      rw [List.count_filter]
      simpa using hv
    · intro k hk
      exact objGet_objSet_other _ _ _ _ hk
    · exact objGet_objSet_other _ _ _ _ (by decide)
    · apply objKeys_objSet_of_mem
      rw [← objGet_isSome_iff_mem, hs]
      rfl
  · intro ht
    have hnew : onDeleteNewFilters w.view.filters chip =
        some (objSet w.view.filters "owner" (.str "")) := by
      simp [onDeleteNewFilters, ht]
    refine ⟨_, _, onDelete_eq_of_newFilters w chip _ hnew, objGet_objSet_same _ _ _, ?_, ?_,
      ?_, rfl, rfl, rfl, fun _ => rfl⟩
    · intro k hk
      exact objGet_objSet_other _ _ _ _ hk
    · exact objGet_objSet_other _ _ _ _ (by decide)
    · intro hmem
      exact objKeys_objSet_of_mem _ _ _ hmem

/-- Witness of C1, the example of the spec: removing the chip `Completed` of `state` from
`{ state: ['Completed', 'Failed'], owner: '' }` leaves `state: ['Failed']`. -/
theorem onDelete_removes_chip_witness :
    ∃ newFilters w1,
      onDelete ⟨"state", "state", [⟨"Completed"⟩]⟩ false
        { view := { initialState with
                    filters := [("state", .arr ["Completed", "Failed"]), ("owner", .str "")] }
          meta := ⟨2, 10, 0, false⟩
          timer := none
          inflight := []
          sent := []
          platformFetches := 1 } = some w1 ∧
      objGet newFilters "state" = some (.arr ["Failed"]) ∧
      objGet newFilters "owner" = some (.str "") ∧
      w1.view.filters = newFilters ∧
      w1.timer = some (newFilters, some ⟨2, 10, 0, false⟩) := by
  obtain ⟨newFilters, w1, h1, h2, _, _, _, _, h7, _, _, h10, h11, _⟩ :=
    (onDelete_removes_chip
      { view := { initialState with
                  filters := [("state", .arr ["Completed", "Failed"]), ("owner", .str "")] }
        meta := ⟨2, 10, 0, false⟩
        timer := none
        inflight := []
        sent := []
        platformFetches := 1 }
      ⟨"state", "state", [⟨"Completed"⟩]⟩ ⟨"Completed"⟩ [] rfl).1
      ["Completed", "Failed"] rfl (by simp [objGet])
  refine ⟨newFilters, w1, h1, ?_, ?_, h10, h11⟩
  · rw [h2]
    decide
  · rw [h7]
    simp [objGet]

/-! ## Clearing all filters -/

/-- C2: `handleClearAll` on the third page (`meta.offset = 20`). The debounced filter is called
with the `meta` of the store as it is, so the fetch dispatched when the timer fires has
offset 20, whereas the fetch of `handleFilterItems` in the same world has offset 0. -/
theorem handleClearAll_offset_not_reset (defaultSettings : Meta) :
    (timerFires defaultSettings
      (handleClearAll
        { view := { initialState with
                    isFetching := false
                    filters := [("state", .arr ["Completed"]), ("owner", .str "")] }
          meta := ⟨25, 10, 20, false⟩
          timer := none
          inflight := []
          sent := []
          platformFetches := 1 })).sent
      = [([("state", .arr []), ("owner", .str "")], some ⟨25, 10, 20, false⟩)] ∧
    (timerFires defaultSettings
      (handleFilterItems (.arr [])
        { view := { initialState with
                    isFetching := false
                    filters := [("state", .arr ["Completed"]), ("owner", .str "")] }
          meta := ⟨25, 10, 20, false⟩
          timer := none
          inflight := []
          sent := []
          platformFetches := 1 })).sent
      = [([("state", .arr []), ("owner", .str "")], some ⟨25, 10, 0, false⟩)] := by
  constructor <;> rfl

/-- C3: `handleClearAll` in any world. The reducer step is `replaceFilterChip` with
`initialState.filters`: the filters become `{ state: [], owner: '' }` and `isFetching`,
`isFiltering`, `filterType` and `isOpen` keep their values; the debounced filter is called
with the same default filters, which the fetch dispatched at the firing of the timer carries.
The clear-all branch of `onDelete` is this handler. -/
theorem handleClearAll_resets_filters (w : World) :
    (handleClearAll w).view = ordersListState w.view (.replaceFilterChip initialState.filters) ∧
    (handleClearAll w).view.filters = [("state", .arr []), ("owner", .str "")] ∧
    (handleClearAll w).view.isFetching = w.view.isFetching ∧
    (handleClearAll w).view.isFiltering = w.view.isFiltering ∧
    (handleClearAll w).view.filterType = w.view.filterType ∧
    (handleClearAll w).view.isOpen = w.view.isOpen ∧
    (handleClearAll w).timer = some ([("state", .arr []), ("owner", .str "")], some w.meta) ∧
    (handleClearAll w).sent = w.sent ∧
    (∀ defaultSettings, (timerFires defaultSettings (handleClearAll w)).sent
      = w.sent ++ [([("state", .arr []), ("owner", .str "")], some w.meta)]) ∧
    (∀ chip, onDelete chip true w = some (handleClearAll w)) := by
  refine ⟨rfl, rfl, rfl, rfl, rfl, rfl, rfl, rfl, fun _ => rfl, fun _ => ?_⟩
  simp [onDelete]

/-! ## Rejected fetches -/

/-- C4: a rejected fetch at mount and in the debounced filter. After the mount effect, when
the orders fetch rejects (so `Promise.all` rejects), `isFetching` is still true; after the
wrapped function of the debounced filter has run and its fetch rejects, `isFiltering` is still
true: neither chain has a `.catch`. The chain of `handlePagination` has one and clears
`isFetching` on rejection. -/
theorem rejected_fetch_leaves_flag_set (defaultSettings : Meta) (seedFilters : Option Filters)
    (seedOrders : Option Meta) (meta : Meta) (w : World) (filters : Filters)
    (pagination : Option Meta) :
    (step defaultSettings (mount seedFilters seedOrders meta)
      (.settles 0 (promiseAll [.rejected, .fulfilled]))).view.isFetching = true ∧
    (onSettled .filter .rejected
      (debouncedFilterBody defaultSettings filters pagination w)).view.isFiltering = true ∧
    (onSettled .paginate .rejected w).view.isFetching = false := by
  refine ⟨rfl, rfl, rfl⟩

/-! ## Pagination -/

/-- C5: `handlePagination` in any world, with any pagination. Before anything settles,
`isFetching` is true, exactly one fetch has been dispatched, with the current filters and the
pagination as given, nothing is handed to the debounce timer, and the other fields of the
reducer state are as before. When the promise of that fetch settles, fulfilled or rejected,
whatever happened in between, `isFetching` becomes false and nothing else changes. -/
theorem handlePagination_lifecycle (defaultSettings : Meta) (w : World) (pagination : Meta) :
    (handlePagination pagination w).view = { w.view with isFetching := true } ∧
    (handlePagination pagination w).view.isFetching = true ∧
    (handlePagination pagination w).sent = w.sent ++ [(w.view.filters, some pagination)] ∧
    (handlePagination pagination w).inflight = w.inflight ++ [.paginate] ∧
    (handlePagination pagination w).timer = w.timer ∧
    (∀ o : Outcome,
      (step defaultSettings (handlePagination pagination w)
        (.settles w.inflight.length o)).view = { w.view with isFetching := false } ∧
      (step defaultSettings (handlePagination pagination w)
        (.settles w.inflight.length o)).sent = w.sent ++ [(w.view.filters, some pagination)] ∧
      (step defaultSettings (handlePagination pagination w)
        (.settles w.inflight.length o)).inflight = w.inflight) ∧
    (∀ (o : Outcome) (w2 : World),
      (onSettled .paginate o w2).view = { w2.view with isFetching := false } ∧
      (onSettled .paginate o w2).sent = w2.sent ∧
      (onSettled .paginate o w2).timer = w2.timer ∧
      (onSettled .paginate o w2).inflight = w2.inflight) := by
  refine ⟨rfl, rfl, rfl, rfl, rfl, ?_, ?_⟩
  · intro o
    have hk : (w.inflight ++ [Waiter.paginate])[w.inflight.length]? = some Waiter.paginate := by
      simp
    have he : (w.inflight ++ [Waiter.paginate]).eraseIdx w.inflight.length = w.inflight := by
      rw [List.eraseIdx_append_of_length_le (Nat.le_refl _)]
      simp
    cases o <;>
      simp [step, handlePagination, dispatchFetchOrders, stateDispatch, ordersListState,
        onSettled, thenP, catchP, hk, he]
  · intro o w2
    cases o <;> exact ⟨rfl, rfl, rfl, rfl⟩

/-! ## Setting a filter value -/

/-- C6: the transition `setFilterValue` in any state, for any filter type and value. In the new
state the filter under the active filter type is the value, every other filter field is as
before, the keys are the same when the filter type was a key, and `isFetching`,
`isFiltering`, `filterType` and `isOpen` are unchanged. `handleFilterItems` makes this
transition and calls the debounced filter with exactly the filters of the new state, which the
fetch dispatched at the firing of the timer carries. -/
theorem setFilterValue_merges (w : World) (value : FilterValue) :
    objGet (ordersListState w.view (.setFilterValue value)).filters w.view.filterType
      = some value ∧
    (∀ k, k ≠ w.view.filterType →
      objGet (ordersListState w.view (.setFilterValue value)).filters k
        = objGet w.view.filters k) ∧
    (w.view.filterType ∈ objKeys w.view.filters →
      objKeys (ordersListState w.view (.setFilterValue value)).filters
        = objKeys w.view.filters) ∧
    (ordersListState w.view (.setFilterValue value)).isFetching = w.view.isFetching ∧
    (ordersListState w.view (.setFilterValue value)).isFiltering = w.view.isFiltering ∧
    (ordersListState w.view (.setFilterValue value)).filterType = w.view.filterType ∧
    (ordersListState w.view (.setFilterValue value)).isOpen = w.view.isOpen ∧
    (handleFilterItems value w).view = ordersListState w.view (.setFilterValue value) ∧
    (handleFilterItems value w).timer
      = some ((ordersListState w.view (.setFilterValue value)).filters,
          some { w.meta with offset := 0 }) ∧
    (∀ defaultSettings, (timerFires defaultSettings (handleFilterItems value w)).sent
      = w.sent ++ [((ordersListState w.view (.setFilterValue value)).filters,
          some { w.meta with offset := 0 })]) := by
  refine ⟨objGet_objSet_same _ _ _, fun k hk => objGet_objSet_other _ _ _ _ hk,
    fun h => objKeys_objSet_of_mem _ _ _ h, rfl, rfl, rfl, rfl, rfl, rfl, fun _ => rfl⟩

/-- Witness of C6, the example of the spec: with filter type `state` and initial filters,
the value `['Completed', 'Failed']` gives `{ state: ['Completed', 'Failed'], owner: '' }`,
with the keys unchanged. -/
theorem setFilterValue_merges_witness :
    objGet (ordersListState initialState (.setFilterValue (.arr ["Completed", "Failed"]))).filters
      "state" = some (.arr ["Completed", "Failed"]) ∧
    objGet (ordersListState initialState (.setFilterValue (.arr ["Completed", "Failed"]))).filters
      "owner" = some (.str "") ∧
    objKeys (ordersListState initialState (.setFilterValue (.arr ["Completed", "Failed"]))).filters
      = ["state", "owner"] := by
  have h := setFilterValue_merges
    { view := initialState
      meta := ⟨0, 10, 0, false⟩
      timer := none
      inflight := []
      sent := []
      platformFetches := 1 } (.arr ["Completed", "Failed"])
  exact ⟨h.1, h.2.1 "owner" (by decide), h.2.2.1 (by decide)⟩

/-! ## The filtering flag -/

/-- C7, as stated, fails, in two ways. In a world where `isFiltering` is false and no call is
pending, after the whole of `handleFilterItems`, of `handleClearAll` and of `onDelete` for a
chip, `isFiltering` is still false, while the debounced call is pending. And after an edit, the
firing of the timer, a second edit, a second firing and the fulfilment of the first fetch,
`isFiltering` is false although the fetch of the second firing has not settled. -/
theorem isFiltering_not_set_synchronously :
    (handleFilterItems (.arr ["Completed"])
      { view := { initialState with isFetching := false }
        meta := ⟨2, 10, 0, false⟩
        timer := none
        inflight := []
        sent := []
        platformFetches := 1 }).view.isFiltering = false ∧
    (handleFilterItems (.arr ["Completed"])
      { view := { initialState with isFetching := false }
        meta := ⟨2, 10, 0, false⟩
        timer := none
        inflight := []
        sent := []
        platformFetches := 1 }).timer
      = some ([("state", .arr ["Completed"]), ("owner", .str "")], some ⟨2, 10, 0, false⟩) ∧
    (handleClearAll
      { view := { initialState with
                  isFetching := false
                  filters := [("state", .arr ["Completed"]), ("owner", .str "")] }
        meta := ⟨2, 10, 0, false⟩
        timer := none
        inflight := []
        sent := []
        platformFetches := 1 }).view.isFiltering = false ∧
    (onDelete ⟨"state", "state", [⟨"Completed"⟩]⟩ false
      { view := { initialState with
                  isFetching := false
                  filters := [("state", .arr ["Completed"]), ("owner", .str "")] }
        meta := ⟨2, 10, 0, false⟩
        timer := none
        inflight := []
        sent := []
        platformFetches := 1 }).map (fun w1 => w1.view.isFiltering) = some false ∧
    (run ⟨0, 50, 0, false⟩
      { view := { initialState with isFetching := false }
        meta := ⟨2, 10, 0, false⟩
        timer := none
        inflight := []
        sent := []
        platformFetches := 1 }
      [.filterItems (.arr ["Completed"]), .timer,
       .filterItems (.arr ["Completed", "Failed"]), .timer,
       .settles 0 .fulfilled]).view.isFiltering = false ∧
    (run ⟨0, 50, 0, false⟩
      { view := { initialState with isFetching := false }
        meta := ⟨2, 10, 0, false⟩
        timer := none
        inflight := []
        sent := []
        platformFetches := 1 }
      [.filterItems (.arr ["Completed"]), .timer,
       .filterItems (.arr ["Completed", "Failed"]), .timer,
       .settles 0 .fulfilled]).inflight = [.filter] := by
  refine ⟨rfl, rfl, rfl, ?_, ?_, ?_⟩ <;> decide

theorem step_keeps_isFiltering (defaultSettings : Meta) (w : World) (e : Event)
    (hf : w.view.isFiltering = true) (he : settlesFilter w e = false) :
    (step defaultSettings w e).view.isFiltering = true := by
  cases e with
  | filterItems value => exact hf
  | deleteChip chip clearAll =>
    cases clearAll with
    | true =>
      simpa [step, onDelete, handleClearAll, debouncedFilter, stateDispatch,
        ordersListState] using hf
    | false =>
      cases hnew : onDeleteNewFilters w.view.filters chip with
      | none => simpa [step, onDelete, hnew] using hf
      | some newFilters =>
        simpa [step, onDelete, hnew, debouncedFilter, stateDispatch, ordersListState] using hf
  | clearAll => exact hf
  | paginate pagination => exact hf
  | filterType value => exact hf
  | timer =>
    cases hw : w.timer with
    | none => simpa [step, timerFires, hw] using hf
    | some args =>
      obtain ⟨filters, meta⟩ := args
      simp [step, timerFires, hw, debouncedFilterBody, dispatchFetchOrders,
        filteringCallback, stateDispatch, ordersListState]
  | settles i o =>
    cases hk : w.inflight[i]? with
    | none => simpa [step, hk] using hf
    | some k =>
      cases k with
      | mount =>
        cases o <;>
          simpa [step, hk, onSettled, thenP, stateDispatch, ordersListState] using hf
      | paginate =>
        cases o <;>
          simpa [step, hk, onSettled, thenP, catchP, stateDispatch, ordersListState] using hf
      | filter => simp [settlesFilter, hk] at he
  | store meta => exact hf

theorem run_keeps_isFiltering (defaultSettings : Meta) (events : List Event) (w : World)
    (hf : w.view.isFiltering = true)
    (hn : noFilterSettles defaultSettings w events = true) (n : Nat) :
    (run defaultSettings w (events.take n)).view.isFiltering = true := by
  induction events generalizing w n with
  | nil => simpa [run] using hf
  | cons e rest ih =>
    cases n with
    | zero => simpa [run] using hf
    | succ m =>
      simp only [noFilterSettles, Bool.and_eq_true, Bool.not_eq_true'] at hn
      have h1 := step_keeps_isFiltering defaultSettings w e hf hn.1
      have h2 := ih (step defaultSettings w e) h1 hn.2 m
      simpa [run] using h2

/-- C7, amended: the synchronous part of `handleFilterItems`, `onDelete` and `handleClearAll`
leaves `isFiltering` as it is and leaves a debounced call pending. When the timer fires with a
call pending, `isFiltering` becomes true and the resulting fetch is dispatched, last among the
chains in flight. From that firing on `isFiltering` is true after every step of every sequence
of events (further edits, chip removals, clear-all, pagination, change of filter type, further
firings of the timer, store updates, settlements of other chains) in which no fetch of a
debounced filter settles: it stays true until the resulting fetch settles, as long as no other
fetch of a debounced filter settles before it. -/
theorem isFiltering_set_when_timer_fires (defaultSettings : Meta) (w : World) :
    (∀ value, (handleFilterItems value w).view.isFiltering = w.view.isFiltering ∧
      (handleFilterItems value w).timer.isSome = true) ∧
    (∀ chip clearAll, ((onDelete chip clearAll w).getD w).view.isFiltering
      = w.view.isFiltering) ∧
    ((handleClearAll w).view.isFiltering = w.view.isFiltering ∧
      (handleClearAll w).timer.isSome = true) ∧
    (w.timer.isSome = true →
      (timerFires defaultSettings w).view.isFiltering = true ∧
      (timerFires defaultSettings w).inflight = w.inflight ++ [.filter] ∧
      (timerFires defaultSettings w).timer = none ∧
      ∀ events : List Event,
        noFilterSettles defaultSettings (timerFires defaultSettings w) events = true →
        ∀ n, (run defaultSettings (timerFires defaultSettings w)
          (events.take n)).view.isFiltering = true) := by
  refine ⟨fun _ => ⟨rfl, rfl⟩, ?_, ⟨rfl, rfl⟩, ?_⟩
  · intro chip clearAll
    cases clearAll with
    | true => simp [onDelete, handleClearAll, debouncedFilter, stateDispatch, ordersListState]
    | false =>
      cases hnew : onDeleteNewFilters w.view.filters chip with
      | none => simp [onDelete, hnew]
      | some newFilters =>
        simp [onDelete, hnew, debouncedFilter, stateDispatch, ordersListState]
  · intro ht
    have hfire : (timerFires defaultSettings w).view.isFiltering = true ∧
        (timerFires defaultSettings w).inflight = w.inflight ++ [.filter] ∧
        (timerFires defaultSettings w).timer = none := by
      cases hw : w.timer with
      | none => simp [hw] at ht
      | some args =>
        obtain ⟨filters, meta⟩ := args
        simp [timerFires, hw, debouncedFilterBody, dispatchFetchOrders, filteringCallback,
          stateDispatch, ordersListState]
    exact ⟨hfire.1, hfire.2.1, hfire.2.2, fun events hn n =>
      run_keeps_isFiltering defaultSettings events _ hfire.1 hn n⟩

/-- Witness of C7, amended: an edit leaves `isFiltering` false; the timer fires with the call
pending and `isFiltering` is true; it is still true after a second edit, a pagination, a second
firing of the timer and the rejection of the pagination fetch, none of which settles the fetch
of a debounced filter. -/
theorem isFiltering_set_when_timer_fires_witness :
    (handleFilterItems (.arr ["Completed"])
      { view := { initialState with isFetching := false }
        meta := ⟨2, 10, 0, false⟩
        timer := none
        inflight := []
        sent := []
        platformFetches := 1 }).view.isFiltering = false ∧
    (timerFires ⟨0, 50, 0, false⟩
      { view := { initialState with
                  isFetching := false
                  filters := [("state", .arr ["Completed"]), ("owner", .str "")] }
        meta := ⟨2, 10, 0, false⟩
        timer := some ([("state", .arr ["Completed"]), ("owner", .str "")],
          some ⟨2, 10, 0, false⟩)
        inflight := []
        sent := []
        platformFetches := 1 }).view.isFiltering = true ∧
    (run ⟨0, 50, 0, false⟩
      (timerFires ⟨0, 50, 0, false⟩
        { view := { initialState with
                    isFetching := false
                    filters := [("state", .arr ["Completed"]), ("owner", .str "")] }
          meta := ⟨2, 10, 0, false⟩
          timer := some ([("state", .arr ["Completed"]), ("owner", .str "")],
            some ⟨2, 10, 0, false⟩)
          inflight := []
          sent := []
          platformFetches := 1 })
      [.filterItems (.arr ["Completed", "Failed"]), .paginate ⟨2, 10, 0, false⟩, .timer,
       .settles 1 .rejected]).view.isFiltering = true := by
  refine ⟨?_, ?_, ?_⟩
  · exact ((isFiltering_set_when_timer_fires ⟨0, 50, 0, false⟩ _).1 (.arr ["Completed"])).1
  · refine ((isFiltering_set_when_timer_fires ⟨0, 50, 0, false⟩ _).2.2.2 ?_).1
    rfl
  · exact ((isFiltering_set_when_timer_fires ⟨0, 50, 0, false⟩
      { view := { initialState with
                  isFetching := false
                  filters := [("state", .arr ["Completed"]), ("owner", .str "")] }
        meta := ⟨2, 10, 0, false⟩
        timer := some ([("state", .arr ["Completed"]), ("owner", .str "")],
          some ⟨2, 10, 0, false⟩)
        inflight := []
        sent := []
        platformFetches := 1 }).2.2.2 rfl).2.2.2
      [.filterItems (.arr ["Completed", "Failed"]), .paginate ⟨2, 10, 0, false⟩, .timer,
       .settles 1 .rejected] (by decide) 4

/-! ## Enrichment of an order -/

theorem findPortfolioItem_of_first_match (first : OrderItem) (rest : List OrderItem)
    (before after : List PortfolioItem) (p : PortfolioItem)
    (hp : p.id = first.portfolio_item_id)
    (hb : ∀ q ∈ before, q.id ≠ first.portfolio_item_id) :
    findPortfolioItem (first :: rest) (before ++ p :: after) = some p := by
  simp only [findPortfolioItem, List.head?_cons]
  rw [List.find?_eq_some]
  refine ⟨by simp [hp], before, after, rfl, ?_⟩
  intro q hq
  have := hb q hq
  simp [Ne.symm this]

theorem findPortfolioItem_of_no_match (orderItems : List OrderItem)
    (portfolioItems : List PortfolioItem)
    (h : orderItems = [] ∨ ∃ first rest, orderItems = first :: rest ∧
      ∀ p ∈ portfolioItems, p.id ≠ first.portfolio_item_id) :
    findPortfolioItem orderItems portfolioItems = none := by
  rcases h with h | ⟨first, rest, h, hno⟩
  · simp [findPortfolioItem, h]
  · subst h
    simp only [findPortfolioItem, List.head?_cons]
    rw [List.find?_eq_none]
    intro q hq
    have := hno q hq
    simp [Ne.symm this]

/-- C8: the enrichment lookup, for every order and every list of portfolio items. If the order
has no item, or no portfolio item has the id named by the first order item, then
`getOrderPortfolioName` is the label `Order <id>` and `getIOrderPlatformId` is the empty
object (neither helper can raise: both are total). If the first portfolio item, in list order,
whose id is the one named by the first order item is `p`, the name is `p.name` and the object
has `orderPlatform: p.service_offering_source_ref` and `orderPortfolio: p.portfolio_id`. One
of the two cases always applies. -/
theorem enrichment_lookup (order : OrderDetail) (portfolioItems : List PortfolioItem) :
    ((order.orderItems = [] ∨ ∃ first rest, order.orderItems = first :: rest ∧
        ∀ p ∈ portfolioItems, p.id ≠ first.portfolio_item_id) →
      getOrderPortfolioName order portfolioItems = some ("Order " ++ order.id) ∧
      getIOrderPlatformId order portfolioItems = []) ∧
    (∀ first rest before p after, order.orderItems = first :: rest →
      portfolioItems = before ++ p :: after →
      p.id = first.portfolio_item_id →
      (∀ q ∈ before, q.id ≠ first.portfolio_item_id) →
      getOrderPortfolioName order portfolioItems = p.name ∧
      getIOrderPlatformId order portfolioItems =
        [("orderPlatform", p.service_offering_source_ref),
         ("orderPortfolio", p.portfolio_id)]) ∧
    ((order.orderItems = [] ∨ ∃ first rest, order.orderItems = first :: rest ∧
        ∀ p ∈ portfolioItems, p.id ≠ first.portfolio_item_id) ∨
      ∃ first rest before p after, order.orderItems = first :: rest ∧
        portfolioItems = before ++ p :: after ∧
        p.id = first.portfolio_item_id ∧
        ∀ q ∈ before, q.id ≠ first.portfolio_item_id) := by
  refine ⟨?_, ?_, ?_⟩
  · intro h
    have hf := findPortfolioItem_of_no_match order.orderItems portfolioItems h
    simp [getOrderPortfolioName, getIOrderPlatformId, hf]
  · intro first rest before p after ho hp hid hb
    have hf : findPortfolioItem order.orderItems portfolioItems = some p := by
      rw [ho, hp]
      exact findPortfolioItem_of_first_match first rest before after p hid hb
    simp [getOrderPortfolioName, getIOrderPlatformId, hf]
  · cases ho : order.orderItems with
    | nil => exact Or.inl (Or.inl rfl)
    | cons first rest =>
      cases hfind : portfolioItems.find? (fun p => decide (first.portfolio_item_id = p.id)) with
      | none =>
        rw [List.find?_eq_none] at hfind
        refine Or.inl (Or.inr ⟨first, rest, rfl, ?_⟩)
        intro p hp hid
        exact hfind p hp (by simp [hid])
      | some p =>
        rw [List.find?_eq_some] at hfind
        obtain ⟨hp, before, after, hsplit, hb⟩ := hfind
        refine Or.inr ⟨first, rest, before, p, after, rfl, hsplit, ?_, ?_⟩
        · exact (of_decide_eq_true hp).symm
        · intro q hq hid
          have := hb q hq
          simp [hid] at this

/-- Witness of C8: an order `7` whose first item names portfolio item `b`. With the items
`a`, `b`, `b` in the reference list the first `b` is used; with only `a` in the list, and for
an order without items, the label is `Order 7` and the object is empty. -/
theorem enrichment_lookup_witness :
    (getOrderPortfolioName ⟨"7", [⟨some "b"⟩]⟩
        [⟨some "a", some "A", some "s1", some "p1"⟩, ⟨some "b", some "B", some "s2", some "p2"⟩,
         ⟨some "b", some "C", some "s3", some "p3"⟩] = some "B" ∧
      getIOrderPlatformId ⟨"7", [⟨some "b"⟩]⟩
        [⟨some "a", some "A", some "s1", some "p1"⟩, ⟨some "b", some "B", some "s2", some "p2"⟩,
         ⟨some "b", some "C", some "s3", some "p3"⟩]
        = [("orderPlatform", some "s2"), ("orderPortfolio", some "p2")]) ∧
    (getOrderPortfolioName ⟨"7", [⟨some "b"⟩]⟩ [⟨some "a", some "A", some "s1", some "p1"⟩]
        = some ("Order " ++ "7") ∧
      getIOrderPlatformId ⟨"7", [⟨some "b"⟩]⟩ [⟨some "a", some "A", some "s1", some "p1"⟩]
        = []) ∧
    (getOrderPortfolioName ⟨"7", []⟩ [⟨some "a", some "A", some "s1", some "p1"⟩]
        = some ("Order " ++ "7") ∧
      getIOrderPlatformId ⟨"7", []⟩ [⟨some "a", some "A", some "s1", some "p1"⟩] = []) := by
  refine ⟨?_, ?_, ?_⟩
  · exact (enrichment_lookup ⟨"7", [⟨some "b"⟩]⟩ _).2.1 ⟨some "b"⟩ []
      [⟨some "a", some "A", some "s1", some "p1"⟩] ⟨some "b", some "B", some "s2", some "p2"⟩
      [⟨some "b", some "C", some "s3", some "p3"⟩] rfl rfl rfl (by decide)
  · exact (enrichment_lookup ⟨"7", [⟨some "b"⟩]⟩ _).1
      (Or.inr ⟨⟨some "b"⟩, [], rfl, by decide⟩)
  · exact (enrichment_lookup ⟨"7", []⟩ _).1 (Or.inl rfl)

/-! ## The keys of the filters -/

theorem objKeys_onDeleteNewFilters (filters : Filters) (chip : Chip) (newFilters : Filters)
    (hmem : chip.type ∈ objKeys filters)
    (h : onDeleteNewFilters filters chip = some newFilters) :
    objKeys newFilters = objKeys filters := by
  unfold onDeleteNewFilters at h
  split at h
  · split at h
    · split at h
      · simp only [Option.some.injEq] at h
        rw [← h]
        exact objKeys_objSet_of_mem _ _ _ hmem
      · simp at h
      · simp only [Option.some.injEq] at h
        rw [← h]
        exact objKeys_objSet_of_mem _ _ _ hmem
    · simp at h
  · simp only [Option.some.injEq] at h
    rw [← h]
    exact objKeys_objSet_of_mem _ _ _ hmem

theorem applyIntent_keeps_schema (w : World) (i : Intent) (hi : i.inSchema = true)
    (hk : objKeys w.view.filters = schemaFields) (ht : w.view.filterType ∈ schemaFields) :
    objKeys (applyIntent w i).view.filters = schemaFields ∧
    (applyIntent w i).view.filterType ∈ schemaFields := by
  cases i with
  | setFilterType field =>
    refine ⟨hk, ?_⟩
    simpa [Intent.inSchema] using hi
  | setFilterValue value =>
    refine ⟨?_, ht⟩
    show objKeys (objSet w.view.filters w.view.filterType value) = schemaFields
    rw [objKeys_objSet_of_mem _ _ _ (hk ▸ ht), hk]
  | removeFilterChip chip =>
    have hc : chip.type ∈ objKeys w.view.filters := by
      rw [hk]
      simpa [Intent.inSchema] using hi
    cases hnew : onDeleteNewFilters w.view.filters chip with
    | none =>
      have : applyIntent w (.removeFilterChip chip) = w := by
        simp [applyIntent, onDelete, hnew]
      rw [this]
      exact ⟨hk, ht⟩
    | some newFilters =>
      have hkeys := objKeys_onDeleteNewFilters _ _ _ hc hnew
      have : (applyIntent w (.removeFilterChip chip)).view
          = { w.view with filters := newFilters } := by
        simp [applyIntent, onDelete, hnew, debouncedFilter, stateDispatch, ordersListState]
      rw [this]
      exact ⟨hkeys.trans hk, ht⟩
  | clearAllFilters => exact ⟨rfl, ht⟩
  | setFetching payload => exact ⟨hk, ht⟩
  | setFilteringFlag payload => exact ⟨hk, ht⟩

theorem foldl_applyIntent_keeps_schema (intents : List Intent) (w : World)
    (hi : ∀ i ∈ intents, i.inSchema = true)
    (hk : objKeys w.view.filters = schemaFields) (ht : w.view.filterType ∈ schemaFields) :
    objKeys (intents.foldl applyIntent w).view.filters = schemaFields ∧
    (intents.foldl applyIntent w).view.filterType ∈ schemaFields := by
  induction intents generalizing w with
  | nil => exact ⟨hk, ht⟩
  | cons i rest ih =>
    have h1 := applyIntent_keeps_schema w i (hi i (List.mem_cons_self _ _)) hk ht
    exact ih (applyIntent w i) (fun j hj => hi j (List.mem_cons_of_mem _ hj)) h1.1 h1.2

/-- C9: the filter schema is invariant. In a world whose reducer state is `initialState`,
after any sequence of intents that stay in the schema (`setFilterType` with `state` or
`owner`, `setFilterValue` with any value, removal of a chip of `state` or `owner`, clear-all,
`setFetching`, `setFilteringFlag`), the keys of the filters are exactly `state` and `owner`,
both are present (a read gives a value, not `undefined`), and the filter type is one of
them. -/
theorem filters_keys_invariant (w : World) (h0 : w.view = initialState)
    (intents : List Intent) (hi : ∀ i ∈ intents, i.inSchema = true) :
    objKeys (intents.foldl applyIntent w).view.filters = ["state", "owner"] ∧
    (objGet (intents.foldl applyIntent w).view.filters "state").isSome = true ∧
    (objGet (intents.foldl applyIntent w).view.filters "owner").isSome = true ∧
    (intents.foldl applyIntent w).view.filterType ∈ ["state", "owner"] := by
  have hk : objKeys w.view.filters = schemaFields := by rw [h0]; rfl
  have ht : w.view.filterType ∈ schemaFields := by rw [h0]; decide
  have h := foldl_applyIntent_keeps_schema intents w hi hk ht
  refine ⟨h.1, ?_, ?_, h.2⟩
  · rw [objGet_isSome_iff_mem, h.1]
    decide
  · rw [objGet_isSome_iff_mem, h.1]
    decide

/-- Witness of C9: from `initialState`, choose `owner`, type `alice`, remove the `owner` chip,
choose `state`, tick `Completed`, clear all. -/
theorem filters_keys_invariant_witness :
    objKeys
      ([Intent.setFilterType "owner", .setFilterValue (.str "alice"),
        .removeFilterChip ⟨"owner", "owner", [⟨"alice"⟩]⟩, .setFilterType "state",
        .setFilterValue (.arr ["Completed"]), .clearAllFilters].foldl applyIntent
        { view := initialState
          meta := ⟨2, 10, 0, false⟩
          timer := none
          inflight := [.mount]
          sent := [([("state", .arr []), ("owner", .str "")], none)]
          platformFetches := 1 }).view.filters = ["state", "owner"] :=
  (filters_keys_invariant _ rfl _ (by decide)).1

/-! ## The empty state -/

/-- C10: the empty state, for every reducer state (so for every value of the filters). It is
rendered exactly when `isFetching` and `isFiltering` are false and the data list is empty.
When it is rendered and `meta.noData` is true, the title and body are `noOrdersTitle` and
`noOrdersDescription`, there is no clear-filters button and the toolbar with the filter chips
is not rendered either; when `meta.noData` is false they
are `noResults` and `noResultsDescription` and the clear-filters button is there. -/
theorem emptyState_selects_messages (view : ViewState) (dataLength : Nat) (meta : Meta) :
    ((emptyState view dataLength meta).isSome = true ↔
      view.isFetching = false ∧ view.isFiltering = false ∧ dataLength = 0) ∧
    (view.isFetching = false → view.isFiltering = false → dataLength = 0 →
      meta.noData = true →
      emptyState view dataLength meta = some ⟨.noOrdersTitle, .noOrdersDescription, []⟩ ∧
      primaryToolbarRendered meta = false) ∧
    (view.isFetching = false → view.isFiltering = false → dataLength = 0 →
      meta.noData = false →
      emptyState view dataLength meta
        = some ⟨.noResults, .noResultsDescription, [.clearFilters]⟩) := by
  refine ⟨?_, ?_, ?_⟩
  · unfold emptyState
    cases view.isFetching <;> cases view.isFiltering <;> cases dataLength <;> simp
  · intro h1 h2 h3 h4
    simp [emptyState, primaryToolbarRendered, h1, h2, h3, h4]
  · intro h1 h2 h3 h4
    simp [emptyState, h1, h2, h3, h4]

/-- Witness of C10: with the filters `{ state: ['Failed'], owner: 'alice' }` and `noData` true
the messages are the "no orders" ones and no button is offered; with `noData` false they are
the "no results" ones with the clear-filters button. -/
theorem emptyState_selects_messages_witness :
    emptyState
      { initialState with
        isFetching := false
        filters := [("state", .arr ["Failed"]), ("owner", .str "alice")] }
      0 ⟨0, 10, 0, true⟩ = some ⟨.noOrdersTitle, .noOrdersDescription, []⟩ ∧
    emptyState
      { initialState with
        isFetching := false
        filters := [("state", .arr ["Failed"]), ("owner", .str "alice")] }
      0 ⟨0, 10, 0, false⟩ = some ⟨.noResults, .noResultsDescription, [.clearFilters]⟩ :=
  ⟨((emptyState_selects_messages _ 0 ⟨0, 10, 0, true⟩).2.1 rfl rfl rfl rfl).1,
   (emptyState_selects_messages _ 0 ⟨0, 10, 0, false⟩).2.2 rfl rfl rfl rfl⟩

/-! ## One fetch per debounce window -/

theorem elapse_before_deadline (defaultSettings : Meta) (now deadline : Nat) (c : Clocked)
    (hd : c.deadline = some deadline) (h : now < deadline) :
    elapse defaultSettings now c = c := by
  simp [elapse, hd, Nat.not_le.mpr h]

theorem elapse_after_deadline (defaultSettings : Meta) (now deadline : Nat) (c : Clocked)
    (hd : c.deadline = some deadline) (h : deadline ≤ now) :
    elapse defaultSettings now c
      = { world := timerFires defaultSettings c.world, deadline := none } := by
  simp [elapse, hd, h]

theorem burst_inside_window (defaultSettings : Meta) (calls : List (Nat × FilterValue))
    (c : Clocked) (previous : Nat)
    (hd : c.deadline = some (previous + debounceWait))
    (hw : withinWindow previous calls = true)
    (ht : c.world.timer
      = some (c.world.view.filters, some { c.world.meta with offset := 0 })) :
    (burst defaultSettings c calls).deadline
      = some (lastCallTime previous calls + debounceWait) ∧
    (burst defaultSettings c calls).world.sent = c.world.sent ∧
    (burst defaultSettings c calls).world.inflight = c.world.inflight ∧
    (burst defaultSettings c calls).world.meta = c.world.meta ∧
    (burst defaultSettings c calls).world.timer
      = some ((burst defaultSettings c calls).world.view.filters,
          some { c.world.meta with offset := 0 }) ∧
    (burst defaultSettings c calls).world.view
      = (calls.map Prod.snd).foldl (fun s v => ordersListState s (.setFilterValue v))
          c.world.view := by
  induction calls generalizing c previous with
  | nil => exact ⟨hd, rfl, rfl, rfl, ht, rfl⟩
  | cons call rest ih =>
    simp only [withinWindow, Bool.and_eq_true, decide_eq_true_eq] at hw
    obtain ⟨⟨_, hlt⟩, hrest⟩ := hw
    have he : elapse defaultSettings call.1 c = c :=
      elapse_before_deadline defaultSettings call.1 _ c hd hlt
    have hstep : filterItemsAt defaultSettings c call
        = { world := handleFilterItems call.2 c.world
            deadline := some (call.1 + debounceWait) } := by
      simp [filterItemsAt, he]
    have h := ih (filterItemsAt defaultSettings c call) call.1 (by rw [hstep]) hrest
      (by rw [hstep]; rfl)
    simp only [burst, List.foldl_cons, lastCallTime, List.map_cons] at h ⊢
    rw [hstep] at h ⊢
    exact h

/-- C11: one fetch per debounce window. A first call of `handleFilterItems` at any time,
followed by any calls that all fall within the window (each less than 1000 ms after the one
before). At every time before the window after the last call has elapsed, no fetch has been
dispatched; at every time from then on exactly one has, and its filters are the filters of
the reducer state after the last call, with offset 0; the reducer state is the one the
`setFilterValue` transitions of the calls give, and no later time adds a fetch. -/
theorem burst_dispatches_one_fetch (defaultSettings : Meta) (w : World)
    (first : Nat × FilterValue) (rest : List (Nat × FilterValue))
    (hw : withinWindow first.1 rest = true) :
    (burst defaultSettings ⟨w, none⟩ (first :: rest)).world.view
      = ((first :: rest).map Prod.snd).foldl
          (fun s v => ordersListState s (.setFilterValue v)) w.view ∧
    (∀ now, now < lastCallTime first.1 rest + debounceWait →
      (elapse defaultSettings now
        (burst defaultSettings ⟨w, none⟩ (first :: rest))).world.sent = w.sent) ∧
    (∀ now, lastCallTime first.1 rest + debounceWait ≤ now →
      (elapse defaultSettings now
        (burst defaultSettings ⟨w, none⟩ (first :: rest))).world.sent
        = w.sent ++ [((burst defaultSettings ⟨w, none⟩ (first :: rest)).world.view.filters,
            some { w.meta with offset := 0 })] ∧
      (elapse defaultSettings now
        (burst defaultSettings ⟨w, none⟩ (first :: rest))).world.view.filters
        = (burst defaultSettings ⟨w, none⟩ (first :: rest)).world.view.filters ∧
      ∀ later,
        elapse defaultSettings later
          (elapse defaultSettings now (burst defaultSettings ⟨w, none⟩ (first :: rest)))
        = elapse defaultSettings now (burst defaultSettings ⟨w, none⟩ (first :: rest))) := by
  have hfirst : filterItemsAt defaultSettings ⟨w, none⟩ first
      = { world := handleFilterItems first.2 w, deadline := some (first.1 + debounceWait) } := by
    simp [filterItemsAt, elapse]
  have h := burst_inside_window defaultSettings rest
    (filterItemsAt defaultSettings ⟨w, none⟩ first) first.1 (by rw [hfirst]) hw
    (by rw [hfirst]; rfl)
  have hb : burst defaultSettings ⟨w, none⟩ (first :: rest)
      = burst defaultSettings (filterItemsAt defaultSettings ⟨w, none⟩ first) rest := rfl
  rw [hb]
  rw [hfirst] at h ⊢
  obtain ⟨hd, hs, _, _, htm, hv⟩ := h
  refine ⟨hv, ?_, ?_⟩
  · intro now hnow
    rw [elapse_before_deadline defaultSettings now _ _ hd hnow, hs]
    rfl
  · intro now hnow
    rw [elapse_after_deadline defaultSettings now _ _ hd hnow]
    refine ⟨?_, ?_, fun later => rfl⟩
    · simp only [timerFires, htm, debouncedFilterBody, dispatchFetchOrders, filteringCallback,
        stateDispatch, Option.getD_some]
      rw [hs]
      rfl
    · simp only [timerFires, htm, debouncedFilterBody, dispatchFetchOrders, filteringCallback,
        stateDispatch, ordersListState]

/-- Witness of C11, the example of the spec: `['Completed']` at 0 ms and
`['Completed', 'Failed']` at 400 ms, from the initial filters. At 1399 ms nothing has been
sent; at 1400 ms exactly one fetch has, with `state: ['Completed', 'Failed']`. -/
theorem burst_dispatches_one_fetch_witness :
    (elapse ⟨0, 50, 0, false⟩ 1399
      (burst ⟨0, 50, 0, false⟩
        ⟨{ view := { initialState with isFetching := false }
           meta := ⟨2, 10, 0, false⟩
           timer := none
           inflight := []
           sent := []
           platformFetches := 1 }, none⟩
        [(0, .arr ["Completed"]), (400, .arr ["Completed", "Failed"])])).world.sent = [] ∧
    (elapse ⟨0, 50, 0, false⟩ 1400
      (burst ⟨0, 50, 0, false⟩
        ⟨{ view := { initialState with isFetching := false }
           meta := ⟨2, 10, 0, false⟩
           timer := none
           inflight := []
           sent := []
           platformFetches := 1 }, none⟩
        [(0, .arr ["Completed"]), (400, .arr ["Completed", "Failed"])])).world.sent
      = [([("state", .arr ["Completed", "Failed"]), ("owner", .str "")],
          some ⟨2, 10, 0, false⟩)] := by
  have h := burst_dispatches_one_fetch ⟨0, 50, 0, false⟩
    { view := { initialState with isFetching := false }
      meta := ⟨2, 10, 0, false⟩
      timer := none
      inflight := []
      sent := []
      platformFetches := 1 }
    (0, .arr ["Completed"]) [(400, .arr ["Completed", "Failed"])] (by decide)
  exact ⟨h.2.1 1399 (by decide), (h.2.2 1400 (by decide)).1⟩

/-! ## The reducer changes one field at a time -/

/-- C12: the reducer `ordersListState`, for every state and payload. `setFetching` sets
`isFetching` and nothing else, `setFilteringFlag` sets `isFiltering` and nothing else,
`setFilterType` sets `filterType` to the payload and nothing else, and an action of a type
the switch does not list returns the state as it is. The handler of the filter-type selector
only makes the `setFilterType` transition: it dispatches no fetch and leaves no debounced call
pending. -/
theorem reducer_changes_one_field (state : ViewState) :
    (∀ payload, ordersListState state (.setFetching payload)
      = { state with isFetching := payload }) ∧
    (∀ payload, (ordersListState state (.setFetching payload)).isFiltering = state.isFiltering ∧
      (ordersListState state (.setFetching payload)).filterType = state.filterType ∧
      (ordersListState state (.setFetching payload)).filters = state.filters) ∧
    (∀ payload, ordersListState state (.setFilteringFlag payload)
      = { state with isFiltering := payload }) ∧
    (∀ payload, (ordersListState state (.setFilteringFlag payload)).isFetching
        = state.isFetching ∧
      (ordersListState state (.setFilteringFlag payload)).filterType = state.filterType ∧
      (ordersListState state (.setFilteringFlag payload)).filters = state.filters) ∧
    (∀ payload, ordersListState state (.setFilterType payload)
      = { state with filterType := payload }) ∧
    (∀ payload, (ordersListState state (.setFilterType payload)).isFetching
        = state.isFetching ∧
      (ordersListState state (.setFilterType payload)).isFiltering = state.isFiltering ∧
      (ordersListState state (.setFilterType payload)).filters = state.filters) ∧
    (∀ type, ordersListState state (.other type) = state) ∧
    (∀ (w : World) value, w.view = state →
      (onFilterTypeChange value w).view = ordersListState state (.setFilterType value) ∧
      (onFilterTypeChange value w).sent = w.sent ∧
      (onFilterTypeChange value w).inflight = w.inflight ∧
      (onFilterTypeChange value w).timer = w.timer) := by
  refine ⟨fun _ => rfl, fun _ => ⟨rfl, rfl, rfl⟩, fun _ => rfl, fun _ => ⟨rfl, rfl, rfl⟩,
    fun _ => rfl, fun _ => ⟨rfl, rfl, rfl⟩, fun _ => rfl, ?_⟩
  intro w value hw
  subst hw
  exact ⟨rfl, rfl, rfl, rfl⟩

/-- Witness of C12: choosing `owner` in the initial state changes the filter type only. -/
theorem reducer_changes_one_field_witness :
    (onFilterTypeChange "owner"
      { view := initialState
        meta := ⟨2, 10, 0, false⟩
        timer := none
        inflight := []
        sent := []
        platformFetches := 1 }).view = { initialState with filterType := "owner" } ∧
    (onFilterTypeChange "owner"
      { view := initialState
        meta := ⟨2, 10, 0, false⟩
        timer := none
        inflight := []
        sent := []
        platformFetches := 1 }).sent = [] :=
  ⟨((reducer_changes_one_field initialState).2.2.2.2.2.2.2 _ "owner" rfl).1,
   ((reducer_changes_one_field initialState).2.2.2.2.2.2.2 _ "owner" rfl).2.1⟩

end OrdersList

namespace JS

/-! ## Properties of the object operations -/

theorem propGet_propSet_same (o : Obj) (k : String) (v : JSValue) :
    propGet (propSet o k v) k = some v := by
  induction o with
  | nil => simp [propSet, propGet]
  | cons p rest ih =>
    obtain ⟨k0, v0⟩ := p
    by_cases h : k0 = k
    · simp [propSet, propGet, h]
    · simp [propSet, propGet, h, ih]

theorem propGet_propSet_other (o : Obj) (k j : String) (v : JSValue) (h : j ≠ k) :
    propGet (propSet o k v) j = propGet o j := by
  induction o with
  | nil => simp [propSet, propGet, Ne.symm h]
  | cons p rest ih =>
    obtain ⟨k0, v0⟩ := p
    by_cases h0 : k0 = k
    · subst h0
      simp [propSet, propGet, Ne.symm h]
    · by_cases h1 : k0 = j
      · subst h1
        simp [propSet, propGet, h]
      · simp [propSet, propGet, h0, h1, ih]

theorem propSet_propSet_same (o : Obj) (k : String) (u v : JSValue) :
    propSet (propSet o k u) k v = propSet o k v := by
  induction o with
  | nil => simp [propSet]
  | cons p rest ih =>
    obtain ⟨k0, v0⟩ := p
    by_cases h : k0 = k
    · simp [propSet, h]
    · simp [propSet, h, ih]

end JS

namespace PortfolioReducer

open JS ActionType

/-! ## Fulfilled and pending fetches -/

theorem replaces_slot (state : Obj) (slot : String) (payload : JSValue)
    (hs : slot ≠ "isLoading") :
    propGet (propSet (propSet state slot payload) "isLoading" (.bool false)) slot
      = some payload ∧
    propGet (propSet (propSet state slot payload) "isLoading" (.bool false)) "isLoading"
      = some (.bool false) ∧
    (∀ k, k ≠ slot → k ≠ "isLoading" →
      propGet (propSet (propSet state slot payload) "isLoading" (.bool false)) k
        = propGet state k) ∧
    (∀ previous,
      propSet (propSet (propSet state slot previous) slot payload) "isLoading" (.bool false)
        = propSet (propSet state slot payload) "isLoading" (.bool false)) := by
  refine ⟨?_, propGet_propSet_same _ _ _, ?_, ?_⟩
  · rw [propGet_propSet_other _ _ _ _ hs, propGet_propSet_same]
  · intro k h1 h2
    rw [propGet_propSet_other _ _ _ _ h2, propGet_propSet_other _ _ _ _ h1]
  · intro previous
    rw [propSet_propSet_same]

/-- C13: the handler map of the portfolio reducer, for every state and every payload. Under
the `_FULFILLED` key of each fetch there is a handler that puts the payload in the slot of
that fetch (`portfolios`, `portfolioItems` twice, `portfolioItem`, `selectedPortfolio`), sets
`isLoading` to false and leaves every other field as it was; the result is the same whatever
the slot held before. Under the `_PENDING` key of each fetch there is a handler that, for an
action without payload, sets `isLoading` to true and leaves every other field as it was. -/
theorem fulfilled_replaces_slot (state : Obj) (payload : JSValue) :
    (∀ t slot,
      (t, slot) ∈ [( ActionType.FETCH_PORTFOLIOS, "portfolios"),
        ( ActionType.FETCH_PORTFOLIO_ITEMS, "portfolioItems"),
        ( FETCH_PORTFOLIO_ITEMS_WITH_PORTFOLIO, "portfolioItems"),
        ( ActionType.FETCH_PORTFOLIO_ITEM, "portfolioItem"),
        ( FETCH_PORTFOLIO, "selectedPortfolio")] →
      ∃ h, handlers (.fulfilled t) = some h ∧
        propGet (h state ⟨payload⟩) slot = some payload ∧
        propGet (h state ⟨payload⟩) "isLoading" = some (.bool false) ∧
        (∀ k, k ≠ slot → k ≠ "isLoading" →
          propGet (h state ⟨payload⟩) k = propGet state k) ∧
        (∀ previous, h (propSet state slot previous) ⟨payload⟩ = h state ⟨payload⟩)) ∧
    (∀ t,
      t ∈ [ ActionType.FETCH_PORTFOLIOS, ActionType.FETCH_PORTFOLIO_ITEMS,
        FETCH_PORTFOLIO_ITEMS_WITH_PORTFOLIO, ActionType.FETCH_PORTFOLIO_ITEM,
        FETCH_PORTFOLIO, ActionType.REMOVE_PORTFOLIO_ITEMS] →
      ∃ h, handlers (.pending t) = some h ∧
        propGet (h state ⟨.undefined⟩) "isLoading" = some (.bool true) ∧
        (∀ k, k ≠ "isLoading" → propGet (h state ⟨.undefined⟩) k = propGet state k)) := by
  constructor
  · intro t slot hmem
    simp only [List.mem_cons, Prod.mk.injEq, List.mem_singleton, List.not_mem_nil,
      or_false] at hmem
    rcases hmem with ⟨rfl, rfl⟩ | ⟨rfl, rfl⟩ | ⟨rfl, rfl⟩ | ⟨rfl, rfl⟩ | ⟨rfl, rfl⟩
    · exact ⟨setPortfolios, rfl, replaces_slot state _ payload (by decide)⟩
    · exact ⟨setPortfolioItems, rfl, replaces_slot state _ payload (by decide)⟩
    · exact ⟨setPortfolioItems, rfl, replaces_slot state _ payload (by decide)⟩
    · exact ⟨setPortfolioItem, rfl, replaces_slot state _ payload (by decide)⟩
    · exact ⟨selectPortfolio, rfl, replaces_slot state _ payload (by decide)⟩
  · intro t hmem
    have hset : propGet (setLoadingState state ⟨.undefined⟩) "isLoading" = some (.bool true) ∧
        (∀ k, k ≠ "isLoading" →
          propGet (setLoadingState state ⟨.undefined⟩) k = propGet state k) :=
      ⟨propGet_propSet_same _ _ _, fun k hk => propGet_propSet_other _ _ _ _ hk⟩
    simp only [List.mem_cons, List.mem_singleton, List.not_mem_nil, or_false] at hmem
    rcases hmem with rfl | rfl | rfl | rfl | rfl | rfl <;> exact ⟨setLoadingState, rfl, hset⟩

/-- Witness of C13: from `portfoliosInitialState`, the fulfilled `FETCH_PORTFOLIOS` with the
payload `null` replaces `portfolios` (which held an object) and clears `isLoading`; the
pending one sets `isLoading`. -/
theorem fulfilled_replaces_slot_witness :
    (∃ h, handlers (.fulfilled .FETCH_PORTFOLIOS) = some h ∧
      propGet (h portfoliosInitialState ⟨.null⟩) "portfolios" = some .null ∧
      propGet (h portfoliosInitialState ⟨.null⟩) "isLoading" = some (.bool false)) ∧
    (∃ h, handlers (.pending .FETCH_PORTFOLIOS) = some h ∧
      propGet (h portfoliosInitialState ⟨.undefined⟩) "isLoading" = some (.bool true)) := by
  constructor
  · obtain ⟨h, h1, h2, h3, _⟩ :=
      (fulfilled_replaces_slot portfoliosInitialState .null).1 .FETCH_PORTFOLIOS "portfolios"
        (by simp)
    exact ⟨h, h1, h2, h3⟩
  · obtain ⟨h, h1, h2, _⟩ :=
      (fulfilled_replaces_slot portfoliosInitialState .null).2 .FETCH_PORTFOLIOS (by simp)
    exact ⟨h, h1, h2⟩

end PortfolioReducer

namespace WebpackConfig

open JS

/-! ## The constants given to the application and the values used by the build -/

theorem resolveItem_customConfigs (stringify : JSValue → JSValue) (inputConfigs : Obj)
    (acc : Resolved) (item : ConfigItem) :
    (resolveItem stringify inputConfigs acc item).customConfigs
      = propSet acc.customConfigs item.name
          (if looseEqNull (propRead inputConfigs item.name) then item.default
            else propRead inputConfigs item.name) := by
  unfold resolveItem
  by_cases h : looseEqNull (propRead inputConfigs item.name) = true <;> simp [h]

theorem resolveItem_globals (stringify : JSValue → JSValue) (inputConfigs : Obj)
    (acc : Resolved) (item : ConfigItem) :
    (resolveItem stringify inputConfigs acc item).globals
      = if item.scope = "global" then
          propSet acc.globals item.name
            (stringify (jsOr (propRead inputConfigs item.name) item.default))
        else acc.globals := by
  rfl

theorem foldl_resolveItem_other (stringify : JSValue → JSValue) (inputConfigs : Obj)
    (items : List ConfigItem) (acc : Resolved) (name : String)
    (hn : ∀ item ∈ items, item.name ≠ name) :
    propGet (items.foldl (resolveItem stringify inputConfigs) acc).customConfigs name
      = propGet acc.customConfigs name ∧
    propGet (items.foldl (resolveItem stringify inputConfigs) acc).globals name
      = propGet acc.globals name := by
  induction items generalizing acc with
  | nil => exact ⟨rfl, rfl⟩
  | cons x xs ih =>
    have hx : name ≠ x.name := fun h => hn x (List.mem_cons_self _ _) h.symm
    have h := ih (resolveItem stringify inputConfigs acc x)
      (fun item hi => hn item (List.mem_cons_of_mem _ hi))
    simp only [List.foldl_cons]
    rw [h.1, h.2, resolveItem_customConfigs, resolveItem_globals]
    refine ⟨propGet_propSet_other _ _ _ _ hx, ?_⟩
    by_cases hs : x.scope = "global"
    · simp only [hs, if_true]
      exact propGet_propSet_other _ _ _ _ hx
    · simp only [hs, if_false]

theorem foldl_resolveItem_mem (stringify : JSValue → JSValue) (inputConfigs : Obj)
    (items : List ConfigItem) (acc : Resolved) (item : ConfigItem)
    (hd : (items.map ConfigItem.name).Nodup) (hm : item ∈ items) :
    propGet (items.foldl (resolveItem stringify inputConfigs) acc).customConfigs item.name
      = some (if looseEqNull (propRead inputConfigs item.name) then item.default
          else propRead inputConfigs item.name) ∧
    (item.scope = "global" →
      propGet (items.foldl (resolveItem stringify inputConfigs) acc).globals item.name
        = some (stringify (jsOr (propRead inputConfigs item.name) item.default))) := by
  induction items generalizing acc with
  | nil => simp at hm
  | cons x xs ih =>
    simp only [List.map_cons, List.nodup_cons, List.mem_map, not_exists, not_and] at hd
    simp only [List.foldl_cons]
    rcases List.mem_cons.mp hm with rfl | hxs
    · have h := foldl_resolveItem_other stringify inputConfigs xs
        (resolveItem stringify inputConfigs acc item) item.name (fun y hy => hd.1 y hy)
      rw [h.1, h.2, resolveItem_customConfigs, resolveItem_globals]
      refine ⟨propGet_propSet_same _ _ _, fun hs => ?_⟩
      simp only [hs, if_true]
      exact propGet_propSet_same _ _ _
    · exact ih (resolveItem stringify inputConfigs acc x) hd.2 hxs

/-- The loop of `module.exports`, for every input: each setting is resolved in
`customConfigs` by the test `== null`, and each setting of scope `global` is emitted as
`JSON.stringify(input || default)`. -/
theorem resolveAll_defaultConfigs (stringify : JSValue → JSValue) (inputConfigs : Obj)
    (item : ConfigItem) (hm : item ∈ defaultConfigs) :
    propGet (webpackBaseConfig stringify inputConfigs).customConfigs item.name
      = some (if looseEqNull (propRead inputConfigs item.name) then item.default
          else propRead inputConfigs item.name) ∧
    (item.scope = "global" →
      propGet (webpackBaseConfig stringify inputConfigs).definePlugin item.name
        = some (stringify (jsOr (propRead inputConfigs item.name) item.default))) :=
  foldl_resolveItem_mem stringify inputConfigs defaultConfigs _ item (by decide) hm

theorem htmlPlugin_targetEnv (stringify : JSValue → JSValue) (inputConfigs : Obj) :
    propGet (webpackBaseConfig stringify inputConfigs).htmlPlugin "targetEnv"
      = some (propRead (webpackBaseConfig stringify inputConfigs).customConfigs
          "DEPLOYMENT_MODE") := by
  unfold webpackBaseConfig
  simp only
  split <;> simp [propSet, propGet]

theorem standaloneEntry_eq (stringify : JSValue → JSValue) (inputConfigs : Obj) :
    (webpackBaseConfig stringify inputConfigs).standaloneEntry
      = strictEqStr (propRead (webpackBaseConfig stringify inputConfigs).customConfigs
          "DEPLOYMENT_MODE") "standalone" :=
  rfl

/-- C14: the input `{ DEPLOYMENT_MODE: '', API_HOST: false, API_BASE_PATH: 0 }`. The values
resolved in `customConfigs` are the inputs `''`, `false` and `0`, so the build uses the target
environment `''` and does not take the standalone entry; the constants given to
`DefinePlugin` are `JSON.stringify` of the defaults `'standalone'`, `''` and `''`, not of the
resolved values. -/
theorem globals_replace_falsy_input (stringify : JSValue → JSValue) :
    propGet (webpackBaseConfig stringify
        [("DEPLOYMENT_MODE", .str ""), ("API_HOST", .bool false),
         ("API_BASE_PATH", .num 0)]).customConfigs "DEPLOYMENT_MODE" = some (.str "") ∧
    propGet (webpackBaseConfig stringify
        [("DEPLOYMENT_MODE", .str ""), ("API_HOST", .bool false),
         ("API_BASE_PATH", .num 0)]).definePlugin "DEPLOYMENT_MODE"
      = some (stringify (.str "standalone")) ∧
    propGet (webpackBaseConfig stringify
        [("DEPLOYMENT_MODE", .str ""), ("API_HOST", .bool false),
         ("API_BASE_PATH", .num 0)]).htmlPlugin "targetEnv" = some (.str "") ∧
    (webpackBaseConfig stringify
        [("DEPLOYMENT_MODE", .str ""), ("API_HOST", .bool false),
         ("API_BASE_PATH", .num 0)]).standaloneEntry = false ∧
    propGet (webpackBaseConfig stringify
        [("DEPLOYMENT_MODE", .str ""), ("API_HOST", .bool false),
         ("API_BASE_PATH", .num 0)]).customConfigs "API_HOST" = some (.bool false) ∧
    propGet (webpackBaseConfig stringify
        [("DEPLOYMENT_MODE", .str ""), ("API_HOST", .bool false),
         ("API_BASE_PATH", .num 0)]).definePlugin "API_HOST" = some (stringify (.str "")) ∧
    propGet (webpackBaseConfig stringify
        [("DEPLOYMENT_MODE", .str ""), ("API_HOST", .bool false),
         ("API_BASE_PATH", .num 0)]).customConfigs "API_BASE_PATH" = some (.num 0) ∧
    propGet (webpackBaseConfig stringify
        [("DEPLOYMENT_MODE", .str ""), ("API_HOST", .bool false),
         ("API_BASE_PATH", .num 0)]).definePlugin "API_BASE_PATH"
      = some (stringify (.str "")) := by
  have hmode := resolveAll_defaultConfigs stringify
    [("DEPLOYMENT_MODE", .str ""), ("API_HOST", .bool false), ("API_BASE_PATH", .num 0)]
    ⟨"DEPLOYMENT_MODE", .str "standalone", "global"⟩ (by simp [defaultConfigs])
  have hhost := resolveAll_defaultConfigs stringify
    [("DEPLOYMENT_MODE", .str ""), ("API_HOST", .bool false), ("API_BASE_PATH", .num 0)]
    ⟨"API_HOST", .str "", "global"⟩ (by simp [defaultConfigs])
  have hpath := resolveAll_defaultConfigs stringify
    [("DEPLOYMENT_MODE", .str ""), ("API_HOST", .bool false), ("API_BASE_PATH", .num 0)]
    ⟨"API_BASE_PATH", .str "", "global"⟩ (by simp [defaultConfigs])
  have htarget := htmlPlugin_targetEnv stringify
    [("DEPLOYMENT_MODE", .str ""), ("API_HOST", .bool false), ("API_BASE_PATH", .num 0)]
  have hentry := standaloneEntry_eq stringify
    [("DEPLOYMENT_MODE", .str ""), ("API_HOST", .bool false), ("API_BASE_PATH", .num 0)]
  generalize webpackBaseConfig stringify
    [("DEPLOYMENT_MODE", .str ""), ("API_HOST", .bool false), ("API_BASE_PATH", .num 0)]
    = build at hmode hhost hpath htarget hentry ⊢
  obtain ⟨hm1, hm2⟩ := hmode
  obtain ⟨hh1, hh2⟩ := hhost
  obtain ⟨hp1, hp2⟩ := hpath
  have hm2 := hm2 rfl
  have hh2 := hh2 rfl
  have hp2 := hp2 rfl
  simp [propRead, propGet, looseEqNull, jsOr, truthy] at hm1 hm2 hh1 hh2 hp1 hp2
  refine ⟨hm1, hm2, ?_, ?_, hh1, hh2, hp1, hp2⟩
  · rw [htarget, propRead, hm1]
    rfl
  · rw [hentry, propRead, hm1]
    rfl

end WebpackConfig
